import Mathlib

/-!
Verification of the rtl66 track serialization and trigger-expansion engine
(`src/seq66/midi/trackdata.cpp`, `include/seq66/play/sequence.hpp`).

The development shallowly embeds the track exporter: byte output is a
`List Nat` of byte values, machine integers are `Nat`/`Int` with explicit
`% 2 ^ 32` where the C++ `midi::ulong` arithmetic can wrap, `midi::pulse`
(a C++ `long`) is `Int` with C++ truncated division (`Int.tdiv`) and
truncated remainder (`Int.tmod`), and operations whose C++ counterpart has
undefined behaviour (modulus by zero, `back()` on an empty container)
return `Option`.

Collaborator classes whose implementation files are not part of the
source tree (the `event` and `trigger` value classes, `eventlist::sort`,
`triggers::any_transposed`, the `calculations` module) are modelled from
the specification; each such definition carries a doc comment starting
with `Modelled from the spec:`.
-/

namespace rtl66

/-! ### Status bytes and meta types (spec section 6, byte-exact) -/

def EVENT_NOTE_OFF : Nat := 0x80
def EVENT_NOTE_ON : Nat := 0x90
def EVENT_AFTERTOUCH : Nat := 0xA0
def EVENT_CONTROL_CHANGE : Nat := 0xB0
def EVENT_PROGRAM_CHANGE : Nat := 0xC0
def EVENT_CHANNEL_PRESSURE : Nat := 0xD0
def EVENT_PITCH_WHEEL : Nat := 0xE0
def EVENT_MIDI_SYSEX : Nat := 0xF0
def EVENT_MIDI_SYSEX_END : Nat := 0xF7
def EVENT_MIDI_META : Nat := 0xFF
def EVENT_META_SEQ_NUMBER : Nat := 0x00
def EVENT_META_TRACK_NAME : Nat := 0x03
def EVENT_META_END_OF_TRACK : Nat := 0x2F
def EVENT_META_SEQSPEC : Nat := 0x7F

/-! ### SeqSpec tag registry

The values of `c_triggers_ex` (0x24240008) and `c_trig_transpose`
(0x24240020) are stated in the `trackdata.cpp` banner comments; the other
registry values are modelled from the spec's fixed registry (only their
distinctness matters for the properties proved here). -/

def c_midibus : Nat := 0x24240001
def c_midichannel : Nat := 0x24240002
def c_timesig : Nat := 0x24240006
def c_triggers_ex : Nat := 0x24240008
def c_musickey : Nat := 0x24240011
def c_musicscale : Nat := 0x24240012
def c_backsequence : Nat := 0x24240013
def c_transpose : Nat := 0x24240014
def c_seq_color : Nat := 0x2424001B
def c_seq_loopcount : Nat := 0x2424001D
def c_trig_transpose : Nat := 0x24240020

/-- Modelled from the spec: documented default musical key (key of C). -/
def c_key_of_C : Nat := 0

/-- Modelled from the spec: documented default scale setting (off). -/
def c_scales_off : Nat := 0

/-- Modelled from the spec: documented "no color" palette default. -/
def c_seq_color_none : Int := -1

/-- Size of the per-note open-count table (one slot per MIDI note). -/
def c_notes_count : Nat := 128

/-! ### Low-level byte primitives (`track::put` and friends) -/

/-- Embeds `track::put`: appends one byte to the container; the argument
undergoes the C++ conversion to `midi::byte`, i.e. reduction mod 256. -/
def put (b : Nat) : List Nat := [b % 256]

/-- C++ conversion of a `midi::pulse` (`long`) to `midi::ulong`:
reduction modulo `2 ^ 32` (`Int.emod` is nonnegative here). -/
def toULong (x : Int) : Nat := (x % (2 ^ 32 : Int)).toNat

/-- C++ conversion of an `int` to `midi::ushort`: reduction modulo `2 ^ 16`. -/
def toUShort (x : Int) : Nat := (x % (2 ^ 16 : Int)).toNat

/-- C++ conversion of an `int` to `midi::byte`: reduction modulo `2 ^ 8`. -/
def toUByte (x : Int) : Nat := (x % (2 ^ 8 : Int)).toNat

/-- Loop body of `track::add_varinum` (`while (v >>= 7) { buffer <<= 8;
buffer |= ((v & 0x7F) | 0x80); }`).  The loop is phrased with a structural
fuel argument; fuel `v` always suffices because the loop variable shrinks
by a factor of at least 128 each iteration (`varinum_buffer_go_fuel`
below proves fuel irrelevance).  `buffer` is a `midi::ulong`, so the
shift wraps modulo `2 ^ 32`. -/
def varinum_buffer_go : Nat → Nat → Nat → Nat
  | 0, _, buffer => buffer
  | fuel + 1, v, buffer =>
      if v >>> 7 = 0 then buffer
      else
        varinum_buffer_go fuel (v >>> 7)
          (((buffer <<< 8) % 2 ^ 32) ||| (((v >>> 7) &&& 0x7F) ||| 0x80))

/-- Staging buffer built by `track::add_varinum` from
`midi::ulong buffer = v & 0x7F;` followed by the shift loop. -/
def varinum_buffer (v : Nat) : Nat :=
  varinum_buffer_go v v (v &&& 0x7F)

/-- Emission loop of `track::add_varinum` (`for (;;) { put(byte(buffer) &
0xFF); if (buffer & 0x80) buffer >>= 8; else break; }`), again with
structural fuel; fuel `buffer` suffices because the buffer shrinks by a
factor of at least 256 whenever the loop continues. -/
def varinum_emit_go : Nat → Nat → List Nat
  | 0, buffer => [buffer % 256]
  | fuel + 1, buffer =>
      if buffer &&& 0x80 = 0 then [buffer % 256]
      else (buffer % 256) :: varinum_emit_go fuel (buffer >>> 8)

/-- Embeds `track::add_varinum`: the MIDI variable-length-quantity
encoding of `v`, as the list of emitted bytes. -/
def add_varinum (v : Nat) : List Nat :=
  varinum_emit_go (varinum_buffer v) (varinum_buffer v)

/-- Embeds `track::add_long`: big-endian 4-byte encoding. -/
def add_long (x : Nat) : List Nat :=
  put ((x &&& 0xFF000000) >>> 24) ++
  put ((x &&& 0x00FF0000) >>> 16) ++
  put ((x &&& 0x0000FF00) >>> 8) ++
  put (x &&& 0x000000FF)

/-- Embeds `track::add_short`: big-endian 2-byte encoding. -/
def add_short (x : Nat) : List Nat :=
  put ((x &&& 0x0000FF00) >>> 8) ++
  put (x &&& 0x000000FF)

/-- Embeds `track::add_byte` (single byte append). -/
def add_byte (x : Nat) : List Nat := put x

/-- Embeds `track::put_meta`: delta time, 0xFF marker, meta type, length. -/
def put_meta (metavalue : Nat) (datalen : Nat) (deltatime : Int) : List Nat :=
  add_varinum (toULong deltatime) ++
  put EVENT_MIDI_META ++
  put metavalue ++
  add_varinum datalen

/-- Embeds `track::put_seqspec`: a SeqSpec meta event header; the 4-byte
tag is part of the declared data length. -/
def put_seqspec (spec : Nat) (datalen : Nat) : List Nat :=
  put_meta EVENT_META_SEQSPEC (datalen + 4) 0 ++ add_long spec

/-- Modelled from the spec: the standard MIDI variable-length-quantity
decoding rule (7 data bits per byte, bit 7 as continuation flag,
most-significant group first); `none` when the list is empty, does not
end the quantity exactly at its last byte, or never clears the
continuation flag. -/
def decode_varinum_go : List Nat → Nat → Option Nat
  | [], _ => none
  | b :: rest, acc =>
      if b % 256 < 128 then
        match rest with
        | [] => some (acc * 128 + b % 128)
        | _ :: _ => none
      else decode_varinum_go rest (acc * 128 + b % 128)

/-- Modelled from the spec: decode a whole byte list as one MIDI varint. -/
def decode_varinum (l : List Nat) : Option Nat :=
  decode_varinum_go l 0

/-! ### Event model

The `event` value class is not among the provided source files; its
observable interface is modelled from spec section 4.2 and from the call
sites in `trackdata.cpp`.  `status` is the channel-less status byte
(0x80–0xE0 for channel-voice events, 0xF0/0xF7/0xFF for SysEx and Meta);
`channel` is the channel nibble of a voice event and doubles as the meta
type of a Meta event (as used by `track::add_ex_event`). -/

structure event where
  status : Nat
  channel : Nat
  d0 : Nat
  d1 : Nat
  timestamp : Int
  sysex : List Nat
deriving Repr, DecidableEq

/-- Embeds `event::mask_status`: keep the upper nibble (0xF0 mask). -/
def mask_status (st : Nat) : Nat := st &&& 0xF0

/-- Modelled from the spec: Meta events carry status byte 0xFF. -/
def event.is_meta (e : event) : Bool := e.status == EVENT_MIDI_META

/-- Modelled from the spec: `event::is_ex_data` holds for Meta and SysEx
events (the two "extended" families of section 4.2). -/
def event.is_ex_data (e : event) : Bool :=
  e.status == EVENT_MIDI_META || e.status == EVENT_MIDI_SYSEX ||
    e.status == EVENT_MIDI_SYSEX_END

/-- Modelled from the spec: channel-voice statuses are below 0xF0. -/
def event.has_channel (e : event) : Bool := decide (e.status < 0xF0)

/-- Modelled from the spec (and the source comment "includes aftertouch"):
note events are Note Off, Note On and Aftertouch. -/
def event.is_note (e : event) : Bool :=
  mask_status e.status == EVENT_NOTE_OFF ||
  mask_status e.status == EVENT_NOTE_ON ||
  mask_status e.status == EVENT_AFTERTOUCH

/-- Modelled from the spec: classify a Note On by its status. -/
def event.is_note_on (e : event) : Bool :=
  mask_status e.status == EVENT_NOTE_ON

/-- Modelled from the spec: classify a Note Off by its status. -/
def event.is_note_off (e : event) : Bool :=
  mask_status e.status == EVENT_NOTE_OFF

/-- Embeds `event::get_note`: the first data byte of a note event. -/
def event.get_note (e : event) : Nat := e.d0

/-- Modelled from the spec: `event::transpose_note` shifts the note
number and clamps the result to the MIDI range [0, 127]. -/
def event.transpose_note (e : event) (amount : Int) : event :=
  { e with d0 := (max 0 (min 127 ((e.d0 : Int) + amount))).toNat }

/-- Embeds `event::sysex_size` (payload byte count, Meta included). -/
def event.sysex_size (e : event) : Nat := e.sysex.length

/-- Source comment in `track::add_event`: the null channel is 0x80. -/
def is_null_channel (channel : Nat) : Bool := channel == 0x80

/-! ### Trigger model -/

/-- Modelled from the spec (section 3): a trigger holds an inclusive tick
window, an offset phase and a semitone transposition. -/
structure trigger where
  tick_start : Int
  tick_end : Int
  offset : Int
  transpose : Int
deriving Repr, DecidableEq

/-- Modelled from the spec: `tick_end` is inclusive, so the trigger
length is `tick_end - tick_start + 1` (the source banner notes that
`tick_end()` is "off by 1" from a length). -/
def trigger.length (t : trigger) : Int := t.tick_end - t.tick_start + 1

/-- Modelled from the spec: a trigger is transposed when its semitone
shift is non-zero ("transpose (semitone shift, zero = none)"). -/
def trigger.transposed (t : trigger) : Bool := t.transpose != 0

/-- Modelled from the spec: the one-byte offset encoding of a trigger's
transposition used by the `c_trig_transpose` SeqSpec (spans roughly five
octaves either way around a centre value). -/
def trigger.transpose_byte (t : trigger) : Nat := toUByte (t.transpose + 0x40)

/-- Modelled from the source banner of `track::fill`: a trigger record is
three 4-byte longs, plus one transposition byte under `c_trig_transpose`. -/
def trigger.datasize (spec : Nat) : Nat :=
  if spec = c_trig_transpose then 13 else 12

/-! ### Sequence state and settings

Only the observers that `trackdata.cpp` actually reads are modelled.
`measticks` records the value of `sequence::measures_to_ticks()`, whose
body lives in the calculations module (not among the source files). -/

structure sequence where
  events : List event
  triggers : List trigger
  song_mute : Bool
  length : Int
  name : List Nat
  midi_channel : Nat
  midi_bus : Nat
  free_channel : Bool
  beats_per_bar : Nat
  beat_width : Nat
  musical_key : Nat
  musical_scale : Nat
  background_sequence : Int
  transposable : Bool
  color : Int
  loop_count_max : Int
  measticks : Int
  last_tick : Int
deriving Repr

/-- Embeds `sequence::is_exportable`: not song-muted and at least one
trigger. -/
def sequence.is_exportable (s : sequence) : Bool :=
  !s.song_mute && decide (0 < s.triggers.length)

/-- Embeds `sequence::mod_last_tick`: mod only when the length exceeds 1
(`midi::pulse` is a C++ `long`, so `%` is the truncated remainder). -/
def sequence.mod_last_tick (s : sequence) : Int :=
  if s.length > 1 then Int.tmod s.last_tick s.length else s.last_tick

/-- Modelled from the spec: `triggers::any_transposed` — some trigger
carries a non-zero transposition. -/
def sequence.any_trigger_transposed (s : sequence) : Bool :=
  s.triggers.any (fun t => t.transposed)

/-- Embeds `sequence::triggers_datasize` (per the source banner: record
size per trigger times the trigger count). -/
def sequence.triggers_datasize (s : sequence) (spec : Nat) : Nat :=
  s.triggers.length * trigger.datasize spec

/-- Modelled from the spec: `seq::valid` — a background sequence id is
valid when it lies in the documented sequence-number range; the default
is an out-of-range sentinel. -/
def seq_valid (n : Int) : Bool := decide (0 ≤ n) && decide (n < 2048)

/-- Embeds the single observer of `rc()` used by `track::fill`. -/
structure rc_settings where
  save_old_triggers : Bool
deriving Repr

/-- Embeds the single observer of `usr()` used by `fill_proprietary`. -/
structure usr_settings where
  global_seq_feature : Bool
deriving Repr

/-! ### Event serialization (`track::add_event`, `track::add_ex_event`) -/

/-- Embeds `track::add_ex_event`: delta time, raw status byte, the meta
type for Meta events, varint payload length, payload bytes. -/
def add_ex_event (e : event) (deltatime : Int) : List Nat :=
  add_varinum (toULong deltatime) ++
  put e.status ++
  (if e.is_meta then put e.channel else []) ++
  add_varinum e.sysex_size ++
  e.sysex.map (fun b => b % 256)

/-- Embeds the data-byte switch of `track::add_event` (two data bytes for
note/aftertouch/control/pitch statuses, one for program change and
channel pressure, none otherwise). -/
def add_event_data (st d0 d1 : Nat) : List Nat :=
  if mask_status st = EVENT_NOTE_OFF ∨ mask_status st = EVENT_NOTE_ON ∨
      mask_status st = EVENT_AFTERTOUCH ∨ mask_status st = EVENT_CONTROL_CHANGE ∨
      mask_status st = EVENT_PITCH_WHEEL then
    put d0 ++ put d1
  else if mask_status st = EVENT_PROGRAM_CHANGE ∨
      mask_status st = EVENT_CHANNEL_PRESSURE then
    put d0
  else []

/-- Embeds `track::add_event`: extended events are delegated unmodified
to `add_ex_event`; channel-voice events get the delta time, the status
byte combined with either the event's own channel (free-channel pattern
or null sequence channel) or the sequence's nominal channel, then the
data bytes. -/
def add_event (s : sequence) (e : event) (deltatime : Int) : List Nat :=
  if e.is_ex_data then add_ex_event e deltatime
  else
    let d0 := e.d0
    let d1 := e.d1
    let channel := s.midi_channel
    let st := e.status
    add_varinum (toULong deltatime) ++
    (if s.free_channel || is_null_channel channel then put (st ||| e.channel)
     else put (st ||| channel)) ++
    (if e.has_channel then add_event_data st d0 d1 else [])

/-! ### Track headers and trailers -/

/-- Embeds `track::fill_seq_number` (0xFF 0x00 0x02, two-byte number). -/
def fill_seq_number (seq : Int) : List Nat :=
  put_meta EVENT_META_SEQ_NUMBER 2 0 ++ add_short (toUShort seq)

/-- Embeds `track::fill_seq_name` (0xFF 0x03, length, name bytes). -/
def fill_seq_name (name : List Nat) : List Nat :=
  put_meta EVENT_META_TRACK_NAME name.length 0 ++ name.map (fun b => b % 256)

/-- Embeds `track::fill_meta_track_end` (0xFF 0x2F 0x00 after a delta). -/
def fill_meta_track_end (deltatime : Int) : List Nat :=
  put_meta EVENT_META_END_OF_TRACK 0 deltatime

/-- Embeds `track::fill_proprietary`: buss, time signature and channel
SeqSpec blocks, the per-sequence key/scale/background blocks when the
global-feature flag is off and each value is non-default, the transpose
flag block, and the conditional color and loop-count blocks. -/
def fill_proprietary (s : sequence) (usr : usr_settings) : List Nat :=
  put_seqspec c_midibus 1 ++ put s.midi_bus ++
  put_seqspec c_timesig 2 ++ put s.beats_per_bar ++ put s.beat_width ++
  put_seqspec c_midichannel 1 ++ put s.midi_channel ++
  (if !usr.global_seq_feature then
    (if s.musical_key ≠ c_key_of_C then
      put_seqspec c_musickey 1 ++ put s.musical_key
     else []) ++
    (if s.musical_scale ≠ c_scales_off then
      put_seqspec c_musicscale 1 ++ put s.musical_scale
     else []) ++
    (if seq_valid s.background_sequence then
      put_seqspec c_backsequence 4 ++ add_long (toULong s.background_sequence)
     else [])
   else []) ++
  put_seqspec c_transpose 1 ++ put (if s.transposable then 1 else 0) ++
  (if s.color ≠ c_seq_color_none then
    put_seqspec c_seq_color 1 ++ put (toUByte s.color)
   else []) ++
  (if s.loop_count_max > 0 then
    put_seqspec c_seq_loopcount 2 ++ add_short (toUShort s.loop_count_max)
   else [])

/-! ### Song export (`track::song_fill_seq_event` and callers)

The locals at the head of `song_fill_seq_event` are hoisted into named
definitions so theorems can refer to them; `midi::pulse` is a C++ `long`,
so `%` is `Int.tmod` and `/` is `Int.tdiv`. -/

/-- Embeds the time-offset computation of `track::song_fill_seq_event`
(`trig_offset`, `start_offset`, `time_offset` and the backward
adjustment when the offset phase exceeds the start phase). -/
def song_time_offset (trig : trigger) (len : Int) : Int :=
  let trig_offset := Int.tmod trig.offset len
  let start_offset := Int.tmod trig.tick_start len
  let time_offset := trig.tick_start + trig_offset - start_offset
  if trig_offset > start_offset then time_offset - len else time_offset

/-- Embeds `int times_played = 1 + (trig.length() - 1) / len;` of
`track::song_fill_seq_event`. -/
def song_times_played (trig : trigger) (len : Int) : Int :=
  1 + Int.tdiv (trigger.length trig - 1) len

/-- State threaded through the replay loops of `song_fill_seq_event`:
the per-note open-count table and the previous-timestamp cursor. -/
structure song_state where
  note_is_used : Nat → Int
  prev_timestamp : Int

/-- Point update of the open-count table. -/
def bump (used : Nat → Int) (note : Nat) (amount : Int) : Nat → Int :=
  fun n => if n = note then used n + amount else used n

/-- Common tail of the replay loop body: compute the delta time against
the previous timestamp, advance the cursor and emit the event. -/
def song_emit (s : sequence) (st : song_state) (e : event) (timestamp : Int) :
    song_state × List Nat :=
  ({ st with prev_timestamp := timestamp },
   add_event s e (timestamp - st.prev_timestamp))

/-- Embeds the per-event body of the replay loop in
`track::song_fill_seq_event` (source lines 663–719): skip events before
the trigger start; for note events record the original note number, then
transpose if the trigger is transposed; skip a Note On past the trigger
end and count one at-or-before the end; emit a Note Off only when its
note is open, clipping its timestamp to the trigger end; drop non-note
events at or past the trigger end; emit everything that survives. -/
def song_event_step (s : sequence) (trig : trigger) (time_offset : Int)
    (st : song_state) (e0 : event) : song_state × List Nat :=
  let timestamp := e0.timestamp + time_offset
  if timestamp ≥ trig.tick_start then
    if e0.is_note then
      let note := e0.get_note
      let e := if trig.transposed then e0.transpose_note trig.transpose else e0
      if e.is_note_on then
        if timestamp ≤ trig.tick_end then
          song_emit s { st with note_is_used := bump st.note_is_used note 1 }
            e timestamp
        else (st, [])
      else if e.is_note_off then
        if st.note_is_used note > 0 then
          song_emit s { st with note_is_used := bump st.note_is_used note (-1) }
            e (if timestamp > trig.tick_end then trig.tick_end else timestamp)
        else (st, [])
      else song_emit s st e timestamp
    else
      if timestamp ≥ trig.tick_end then (st, [])
      else song_emit s st e0 timestamp
  else (st, [])

/-- One replay pass: the inner `for (auto e : seq().events())` loop of
`song_fill_seq_event` at a fixed time offset. -/
def song_pass (s : sequence) (trig : trigger) (time_offset : Int) :
    song_state → List event → song_state × List Nat
  | st, [] => (st, [])
  | st, e :: rest =>
      let step := song_event_step s trig time_offset st e
      let next := song_pass s trig time_offset step.1 rest
      (next.1, step.2 ++ next.2)

/-- The outer pass loop of `song_fill_seq_event`
(`for (p = 0; p <= times_played; ++p, time_offset += len)`): the
open-count table persists across passes and the offset grows by the
pattern length each pass. -/
def song_passes (s : sequence) (trig : trigger) :
    Nat → Int → song_state → song_state × List Nat
  | 0, _, st => (st, [])
  | p + 1, time_offset, st =>
      let pass := song_pass s trig time_offset st s.events
      let rest := song_passes s trig p (time_offset + s.length) pass.1
      (rest.1, pass.2 ++ rest.2)

/-- Embeds `track::song_fill_seq_event`.  A zero pattern length makes the
C++ `trig.offset() % len` undefined, hence the `Option`.  Returns the
emitted bytes and the final previous-timestamp cursor. -/
def song_fill_seq_event (s : sequence) (trig : trigger)
    (prev_timestamp : Int) : Option (List Nat × Int) :=
  let len := s.length
  if len = 0 then none
  else
    let time_offset := song_time_offset trig len
    let times_played := song_times_played trig len
    let st0 : song_state :=
      { note_is_used := fun _ => 0, prev_timestamp := prev_timestamp }
    let result := song_passes s trig (times_played + 1).toNat time_offset st0
    some (result.2, result.1.prev_timestamp)

/-- Embeds `track::song_fill_seq_trigger`: the single flattened
`c_triggers_ex` SeqSpec (zeroed start and offset, the trigger's own end
tick), the proprietary blocks, and the end-of-track meta whose delta is
`length - prev_timestamp`. -/
def song_fill_seq_trigger (s : sequence) (usr : usr_settings)
    (trig : trigger) (length : Int) (prev_timestamp : Int) : List Nat :=
  put_seqspec c_triggers_ex (trigger.datasize c_triggers_ex) ++
  add_long 0 ++
  add_long (toULong trig.tick_end) ++
  add_long 0 ++
  fill_proprietary s usr ++
  fill_meta_track_end (length - prev_timestamp)

/-- The per-trigger replay loop of `track::song_fill_track`
(`for (auto & t : trigs) last_ts = song_fill_seq_event(t, last_ts);`),
propagating the zero-length failure of `song_fill_seq_event`. -/
def song_trigger_loop (s : sequence) :
    List trigger → Int → Option (List Nat × Int)
  | [], last_ts => some ([], last_ts)
  | t :: ts, last_ts =>
      match song_fill_seq_event s t last_ts with
      | none => none
      | some (bs, last') =>
          match song_trigger_loop s ts last' with
          | none => none
          | some (rest, last'') => some (bs ++ rest, last'')

/-- Embeds the measure-snap of `track::song_fill_track` (source lines
196–202): when `measticks` is positive, push `seqend` up so that its
remainder modulo `measticks` becomes `measticks - 1`. -/
def song_rounded_end (seqend measticks : Int) : Int :=
  if measticks > 0 then
    let remainder := Int.tmod seqend measticks
    if remainder ≠ measticks - 1 then seqend + measticks - remainder - 1
    else seqend
  else seqend

/-- Embeds `track::song_fill_track`.  A non-exportable sequence leaves
the byte container untouched and reports `false`; otherwise the
container is cleared and refilled: optional standalone headers, the
replayed triggers, then the flattened trigger with the measure-rounded
end tick as the track length.  `trigs.back()` on an empty list would be
undefined, hence the `Option` (unreachable: exportability implies a
non-empty trigger list). -/
def song_fill_track (s : sequence) (usr : usr_settings)
    (initial : List Nat) (track : Int) (standalone : Bool) :
    Option (Bool × List Nat) :=
  if s.is_exportable then
    let head :=
      if standalone then fill_seq_number track ++ fill_seq_name s.name else []
    match song_trigger_loop s s.triggers 0 with
    | none => none
    | some (body, last_ts) =>
        match s.triggers.getLast? with
        | none => none
        | some ender =>
            let seqend := song_rounded_end ender.tick_end s.measticks
            some (true,
              head ++ body ++ song_fill_seq_trigger s usr ender seqend last_ts)
  else some (false, initial)

/-! ### Regular per-track export (`track::fill`) -/

/-- Modelled from the spec: the tie-break rank used by
`eventlist::sort` (Note Off before Note On before other events at the
same tick). -/
def event_rank (e : event) : Nat :=
  if e.is_note_off then 0 else if e.is_note_on then 1 else 2

/-- Modelled from the spec: strict ordering on events — earlier
timestamp first, rank as secondary key. -/
def event_lt (a b : event) : Bool :=
  a.timestamp < b.timestamp ||
    (a.timestamp == b.timestamp && decide (event_rank a < event_rank b))

/-- Modelled from the spec: stable insertion for `sort_events` (an
element moves past only strictly smaller elements). -/
def insert_event (e : event) : List event → List event
  | [] => [e]
  | x :: xs => if event_lt x e then x :: insert_event e xs else e :: x :: xs

/-- Modelled from the spec: `eventlist::sort`, a stable sort by
timestamp with the documented tie-break. -/
def sort_events : List event → List event
  | [] => []
  | e :: es => insert_event e (sort_events es)

/-- Embeds the event loop of `track::fill`: compute each delta time,
abort the loop (`errprint` + `break`) on a negative delta, otherwise
advance the cursor and emit.  Returns the emitted bytes and the final
previous-timestamp cursor. -/
def fill_events (s : sequence) : List event → Int → List Nat × Int
  | [], prevtimestamp => ([], prevtimestamp)
  | e :: rest, prevtimestamp =>
      let timestamp := e.timestamp
      let deltatime := timestamp - prevtimestamp
      if deltatime < 0 then ([], prevtimestamp)
      else
        let next := fill_events s rest timestamp
        (add_event s e deltatime ++ next.1, next.2)

/-- Embeds the trigger SeqSpec section of `track::fill`: the tag variant
is chosen once for the whole track (`c_trig_transpose` exactly when old
triggers are not being saved and some trigger is transposed), then every
trigger is written as three longs, plus the transposition byte under the
transpose variant. -/
def fill_triggers_section (s : sequence) (rc : rc_settings) : List Nat :=
  let transtriggers := !rc.save_old_triggers && s.any_trigger_transposed
  (if transtriggers then
    put_seqspec c_trig_transpose (s.triggers_datasize c_trig_transpose)
   else
    put_seqspec c_triggers_ex (s.triggers_datasize c_triggers_ex)) ++
  (s.triggers.map (fun t =>
    add_long (toULong t.tick_start) ++
    add_long (toULong t.tick_end) ++
    add_long (toULong t.offset) ++
    (if transtriggers then add_byte t.transpose_byte else []))).flatten

/-- Embeds `track::fill`: sort a copy of the events, optional sequence
number, track name, the delta-timed event loop, the SeqSpec sections when
requested, and the end-of-track meta whose delta is the remaining length
(clamped to zero when the nominal length is behind the cursor). -/
def fill (s : sequence) (rc : rc_settings) (usr : usr_settings)
    (track : Int) (doseqspec : Bool) : List Nat :=
  let evl := sort_events s.events
  let body := fill_events s evl 0
  let prevtimestamp := body.2
  let len := s.length
  let deltatime := if len < prevtimestamp then 0 else len - prevtimestamp
  (if doseqspec then fill_seq_number track else []) ++
  fill_seq_name s.name ++
  body.1 ++
  (if doseqspec then fill_triggers_section s rc ++ fill_proprietary s usr
   else []) ++
  fill_meta_track_end deltatime

/-! ### Arithmetic readings of the bit operations

The varint loops are written with the source's bit operations; these
lemmas provide their arithmetic readings (shift right by 7 is division by
128, masking with 0x7F is reduction mod 128, an `or` of disjoint bit
ranges is an addition). -/

lemma shiftRight7_eq (x : Nat) : x >>> 7 = x / 128 := by
  rw [Nat.shiftRight_eq_div_pow]

lemma shiftRight8_eq (x : Nat) : x >>> 8 = x / 256 := by
  rw [Nat.shiftRight_eq_div_pow]

lemma and127_eq (x : Nat) : x &&& 127 = x % 128 := by
  have h := Nat.and_pow_two_sub_one_eq_mod x 7
  norm_num at h
  exact h

lemma lor_shift_add (a b k : Nat) (h : b < 2 ^ k) :
    (a <<< k) ||| b = a * 2 ^ k + b := by
  apply Nat.eq_of_testBit_eq
  intro i
  rw [Nat.testBit_or]
  rcases Nat.lt_or_ge i k with hik | hik
  · have hsh : (a <<< k).testBit i = false := by
      rw [Nat.testBit_shiftLeft]
      simp only [Bool.and_eq_false_imp, decide_eq_true_eq]
      intro hge
      omega
    rw [hsh, Bool.false_or]
    have hexp : i + (1 + (k - (i + 1))) = k := by omega
    have hd : a * 2 ^ k + b =
        2 ^ i * (2 ^ (1 + (k - (i + 1))) * a) + b := by
      rw [← Nat.mul_assoc, ← Nat.pow_add, hexp, Nat.mul_comm (2 ^ k) a]
    have key : (a * 2 ^ k + b) / 2 ^ i % 2 = b / 2 ^ i % 2 := by
      rw [hd, Nat.mul_add_div (Nat.two_pow_pos i)]
      have h2 : 2 ^ (1 + (k - (i + 1))) * a = 2 * (2 ^ (k - (i + 1)) * a) := by
        rw [Nat.pow_add]
        ring
      rw [h2, Nat.mul_add_mod]
    rw [Nat.testBit_to_div_mod, Nat.testBit_to_div_mod, key]
  · have hb : b.testBit i = false :=
      Nat.testBit_lt_two_pow
        (lt_of_lt_of_le h (Nat.pow_le_pow_right (by omega) hik))
    rw [hb, Bool.or_false, Nat.testBit_shiftLeft]
    have hge : decide (i ≥ k) = true := by simpa using hik
    rw [hge, Bool.true_and]
    rw [Nat.testBit_to_div_mod, Nat.testBit_to_div_mod]
    have hsplit : (2 : Nat) ^ i = 2 ^ k * 2 ^ (i - k) := by
      rw [← Nat.pow_add]
      congr 1
      omega
    rw [hsplit, ← Nat.div_div_eq_div_mul, Nat.mul_comm a,
      Nat.mul_add_div (Nat.two_pow_pos k), Nat.div_eq_of_lt h, Nat.add_zero]

lemma lor128_eq (b : Nat) (h : b < 128) : b ||| 128 = b + 128 := by
  have h2 : (1 <<< 7) ||| b = 1 * 2 ^ 7 + b := lor_shift_add 1 b 7 (by omega)
  rw [Nat.shiftLeft_eq] at h2
  norm_num at h2
  rw [Nat.lor_comm, h2]
  omega

lemma and128_eq (n : Nat) : n &&& 128 = if n / 128 % 2 = 1 then 128 else 0 := by
  apply Nat.eq_of_testBit_eq
  intro i
  rw [Nat.testBit_and]
  have h128 : (128 : Nat) = 2 ^ 7 := by norm_num
  by_cases hc : n / 128 % 2 = 1
  · rw [if_pos hc, h128, Nat.testBit_two_pow]
    by_cases hi : (7 : Nat) = i
    · subst hi
      have : n.testBit 7 = true := by
        rw [Nat.testBit_to_div_mod]
        simpa using hc
      simp [this]
    · simp [hi]
  · rw [if_neg hc]
    rcases eq_or_ne i 7 with hi | hi
    · subst hi
      have : n.testBit 7 = false := by
        rw [Nat.testBit_to_div_mod]
        simpa using hc
      simp [this]
    · rw [h128, Nat.testBit_two_pow]
      simp [Ne.symm hi]

/-! ### Fuel irrelevance and single-step laws for the varint loops -/

lemma varinum_buffer_go_fuel :
    ∀ f1 f2 v buffer, v ≤ f1 → v ≤ f2 →
      varinum_buffer_go f1 v buffer = varinum_buffer_go f2 v buffer := by
  intro f1
  induction f1 with
  | zero =>
      intro f2 v buffer h1 _
      have hv : v = 0 := by omega
      subst hv
      cases f2 with
      | zero => rfl
      | succ g => simp [varinum_buffer_go]
  | succ f ih =>
      intro f2 v buffer h1 h2
      by_cases hz : v >>> 7 = 0
      · cases f2 with
        | zero =>
            have hv : v = 0 := by omega
            subst hv
            simp [varinum_buffer_go]
        | succ g => simp [varinum_buffer_go, hz]
      · have hvpos : 0 < v := by
          rcases Nat.eq_zero_or_pos v with h | h
          · subst h; simp at hz
          · exact h
        have hlt : v >>> 7 < v := by
          rw [shiftRight7_eq]
          omega
        cases f2 with
        | zero => omega
        | succ g =>
            simp only [varinum_buffer_go, hz, if_neg]
            exact ih g (v >>> 7) _ (by omega) (by omega)

lemma varinum_buffer_go_eq (v buffer : Nat) :
    varinum_buffer_go v v buffer =
      if v >>> 7 = 0 then buffer
      else varinum_buffer_go (v >>> 7) (v >>> 7)
        (((buffer <<< 8) % 2 ^ 32) ||| (((v >>> 7) &&& 0x7F) ||| 0x80)) := by
  cases v with
  | zero => simp [varinum_buffer_go]
  | succ n =>
      by_cases hz : (n + 1) >>> 7 = 0
      · simp [varinum_buffer_go, hz]
      · have hlt : (n + 1) >>> 7 ≤ n := by
          rw [shiftRight7_eq] at hz ⊢
          omega
        simp only [varinum_buffer_go, hz, if_neg]
        exact varinum_buffer_go_fuel n _ _ _ hlt (le_refl _)

lemma varinum_emit_go_fuel :
    ∀ f1 f2 buffer, buffer ≤ f1 → buffer ≤ f2 →
      varinum_emit_go f1 buffer = varinum_emit_go f2 buffer := by
  intro f1
  induction f1 with
  | zero =>
      intro f2 buffer h1 _
      have hb : buffer = 0 := by omega
      subst hb
      cases f2 with
      | zero => rfl
      | succ g => simp [varinum_emit_go]
  | succ f ih =>
      intro f2 buffer h1 h2
      by_cases hz : buffer &&& 0x80 = 0
      · cases f2 with
        | zero =>
            have hb : buffer = 0 := by omega
            subst hb
            simp [varinum_emit_go]
        | succ g => simp [varinum_emit_go, hz]
      · have hge : 128 ≤ buffer := by
          by_contra hlt
          have : buffer &&& 128 = 0 := by
            rw [and128_eq]
            have : buffer / 128 = 0 := by omega
            simp [this]
          exact hz this
        have hlt : buffer >>> 8 < buffer := by
          rw [shiftRight8_eq]
          omega
        cases f2 with
        | zero => omega
        | succ g =>
            simp only [varinum_emit_go, hz, if_neg]
            have hsh : buffer >>> 8 = buffer / 256 := shiftRight8_eq buffer
            exact congrArg (fun l => buffer % 256 :: l)
              (ih g (buffer >>> 8) (by omega) (by omega))

lemma varinum_emit_go_eq (buffer : Nat) :
    varinum_emit_go buffer buffer =
      if buffer &&& 0x80 = 0 then [buffer % 256]
      else (buffer % 256) :: varinum_emit_go (buffer >>> 8) (buffer >>> 8) := by
  cases buffer with
  | zero => simp [varinum_emit_go]
  | succ n =>
      by_cases hz : (n + 1) &&& 0x80 = 0
      · simp [varinum_emit_go, hz]
      · have hge : 128 ≤ n + 1 := by
          by_contra hlt
          have h0 : (n + 1) &&& 128 = 0 := by
            rw [and128_eq]
            have : (n + 1) / 128 = 0 := by omega
            simp [this]
          exact hz h0
        have hle : (n + 1) >>> 8 ≤ n := by
          rw [shiftRight8_eq]
          omega
        simp only [varinum_emit_go, hz, if_neg]
        exact congrArg (fun l => (n + 1) % 256 :: l)
          (varinum_emit_go_fuel n _ _ hle (le_refl _))

/-! ### Arithmetic single-step laws for the varint loops -/

lemma byte_div128_mod2_one (hi lo : Nat) (h1 : 128 ≤ lo) (h2 : lo < 256) :
    (hi * 256 + lo) / 128 % 2 = 1 := by
  have hq : (hi * 256 + lo) / 128 = 2 * hi + 1 := by omega
  rw [hq]
  omega

lemma small_div128_mod2_zero (b : Nat) (h : b < 128) : b / 128 % 2 = 0 := by
  have hq : b / 128 = 0 := by omega
  rw [hq]

lemma varinum_buffer_step (v buffer : Nat) (hv : 128 ≤ v)
    (hb : buffer < 2 ^ 24) :
    varinum_buffer_go v v buffer =
      varinum_buffer_go (v / 128) (v / 128)
        (buffer * 256 + (v / 128 % 128 + 128)) := by
  rw [varinum_buffer_go_eq]
  have hz : v >>> 7 ≠ 0 := by
    rw [shiftRight7_eq]
    omega
  rw [if_neg hz, shiftRight7_eq, and127_eq]
  have hor : v / 128 % 128 ||| 128 = v / 128 % 128 + 128 :=
    lor128_eq _ (Nat.mod_lt _ (by omega))
  have hsh : buffer <<< 8 = buffer * 256 := by
    rw [Nat.shiftLeft_eq]
  have hmod : buffer * 256 % 2 ^ 32 = buffer * 256 := by omega
  have hor2 : buffer * 256 ||| (v / 128 % 128 + 128) =
      buffer * 256 + (v / 128 % 128 + 128) := by
    have h8 : buffer <<< 8 ||| (v / 128 % 128 + 128) =
        buffer * 2 ^ 8 + (v / 128 % 128 + 128) := by
      apply lor_shift_add
      have := Nat.mod_lt (v / 128) (show 0 < 128 by omega)
      omega
    have hp : buffer * 2 ^ 8 = buffer * 256 := by norm_num
    rw [hsh, hp] at h8
    exact h8
  rw [hor, hsh, hmod, hor2]

lemma varinum_buffer_exit (v buffer : Nat) (hv : v < 128) :
    varinum_buffer_go v v buffer = buffer := by
  rw [varinum_buffer_go_eq]
  have hz : v >>> 7 = 0 := by
    rw [shiftRight7_eq]
    omega
  rw [if_pos hz]

lemma varinum_emit_step (buffer : Nat) (h : buffer / 128 % 2 = 1) :
    varinum_emit_go buffer buffer =
      (buffer % 256) :: varinum_emit_go (buffer / 256) (buffer / 256) := by
  rw [varinum_emit_go_eq]
  have hz : buffer &&& 0x80 ≠ 0 := by
    rw [and128_eq, if_pos h]
    omega
  rw [if_neg hz, shiftRight8_eq]

lemma varinum_emit_exit (buffer : Nat) (h : buffer / 128 % 2 = 0) :
    varinum_emit_go buffer buffer = [buffer % 256] := by
  rw [varinum_emit_go_eq]
  have hz : buffer &&& 0x80 = 0 := by
    rw [and128_eq, h]
    norm_num
  rw [if_pos hz]

/-! ### Closed forms of `add_varinum` on the four varint length ranges -/

lemma add_varinum_range1 (v : Nat) (h : v < 128) :
    add_varinum v = [v] := by
  unfold add_varinum varinum_buffer
  rw [and127_eq]
  have hm : v % 128 = v := Nat.mod_eq_of_lt h
  rw [hm, varinum_buffer_exit v v h, varinum_emit_exit v (by omega)]
  rw [Nat.mod_eq_of_lt (by omega)]

lemma add_varinum_range2 (v : Nat) (h1 : 128 ≤ v) (h2 : v < 2 ^ 14) :
    add_varinum v = [v / 128 + 128, v % 128] := by
  unfold add_varinum varinum_buffer
  rw [and127_eq]
  have hb1 : varinum_buffer_go v v (v % 128) =
      varinum_buffer_go (v / 128) (v / 128) (v % 128 * 256 + (v / 128 % 128 + 128)) :=
    varinum_buffer_step v (v % 128) h1 (by omega)
  have hq : v / 128 < 128 := by omega
  have hqm : v / 128 % 128 = v / 128 := Nat.mod_eq_of_lt hq
  rw [hb1, hqm, varinum_buffer_exit _ _ hq]
  rw [varinum_emit_step _
    (byte_div128_mod2_one (v % 128) (v / 128 + 128) (by omega) (by omega))]
  have e1 : (v % 128 * 256 + (v / 128 + 128)) % 256 = v / 128 + 128 := by omega
  have e2 : (v % 128 * 256 + (v / 128 + 128)) / 256 = v % 128 := by omega
  rw [e1, e2, varinum_emit_exit _ (small_div128_mod2_zero _ (by omega))]
  rw [Nat.mod_eq_of_lt (show v % 128 < 256 by omega)]

lemma add_varinum_range3 (v : Nat) (h1 : 2 ^ 14 ≤ v) (h2 : v < 2 ^ 21) :
    add_varinum v = [v / 2 ^ 14 + 128, v / 128 % 128 + 128, v % 128] := by
  unfold add_varinum varinum_buffer
  rw [and127_eq]
  have hb1 : varinum_buffer_go v v (v % 128) =
      varinum_buffer_go (v / 128) (v / 128)
        (v % 128 * 256 + (v / 128 % 128 + 128)) :=
    varinum_buffer_step v (v % 128) (by omega) (by omega)
  have hdd : v / 128 / 128 = v / 2 ^ 14 := by
    rw [Nat.div_div_eq_div_mul]
    norm_num
  have hb2 : varinum_buffer_go (v / 128) (v / 128)
      (v % 128 * 256 + (v / 128 % 128 + 128)) =
      varinum_buffer_go (v / 128 / 128) (v / 128 / 128)
        ((v % 128 * 256 + (v / 128 % 128 + 128)) * 256 +
          (v / 128 / 128 % 128 + 128)) := by
    apply varinum_buffer_step
    · omega
    · omega
  have hq2 : v / 2 ^ 14 < 128 := by omega
  have hq2m : v / 2 ^ 14 % 128 = v / 2 ^ 14 := Nat.mod_eq_of_lt hq2
  rw [hb1, hb2, hdd, hq2m, varinum_buffer_exit _ _ hq2]
  rw [varinum_emit_step _
    (byte_div128_mod2_one (v % 128 * 256 + (v / 128 % 128 + 128))
      (v / 2 ^ 14 + 128) (by omega) (by omega))]
  have e1 : ((v % 128 * 256 + (v / 128 % 128 + 128)) * 256 +
      (v / 2 ^ 14 + 128)) % 256 = v / 2 ^ 14 + 128 := by omega
  have e2 : ((v % 128 * 256 + (v / 128 % 128 + 128)) * 256 +
      (v / 2 ^ 14 + 128)) / 256 =
      v % 128 * 256 + (v / 128 % 128 + 128) := by omega
  rw [e1, e2]
  rw [varinum_emit_step _
    (byte_div128_mod2_one (v % 128) (v / 128 % 128 + 128) (by omega) (by omega))]
  have e3 : (v % 128 * 256 + (v / 128 % 128 + 128)) % 256 =
      v / 128 % 128 + 128 := by omega
  have e4 : (v % 128 * 256 + (v / 128 % 128 + 128)) / 256 = v % 128 := by omega
  rw [e3, e4, varinum_emit_exit _ (small_div128_mod2_zero _ (by omega))]
  rw [Nat.mod_eq_of_lt (show v % 128 < 256 by omega)]

lemma add_varinum_range4 (v : Nat) (h1 : 2 ^ 21 ≤ v) (h2 : v < 2 ^ 28) :
    add_varinum v =
      [v / 2 ^ 21 + 128, v / 2 ^ 14 % 128 + 128, v / 128 % 128 + 128,
       v % 128] := by
  unfold add_varinum varinum_buffer
  rw [and127_eq]
  have hb1 : varinum_buffer_go v v (v % 128) =
      varinum_buffer_go (v / 128) (v / 128)
        (v % 128 * 256 + (v / 128 % 128 + 128)) :=
    varinum_buffer_step v (v % 128) (by omega) (by omega)
  have hdd : v / 128 / 128 = v / 2 ^ 14 := by
    rw [Nat.div_div_eq_div_mul]
    norm_num
  have hb2 : varinum_buffer_go (v / 128) (v / 128)
      (v % 128 * 256 + (v / 128 % 128 + 128)) =
      varinum_buffer_go (v / 128 / 128) (v / 128 / 128)
        ((v % 128 * 256 + (v / 128 % 128 + 128)) * 256 +
          (v / 128 / 128 % 128 + 128)) := by
    apply varinum_buffer_step
    · omega
    · omega
  have hdd2 : v / 2 ^ 14 / 128 = v / 2 ^ 21 := by
    rw [Nat.div_div_eq_div_mul]
    norm_num
  have hb3 : varinum_buffer_go (v / 2 ^ 14) (v / 2 ^ 14)
      ((v % 128 * 256 + (v / 128 % 128 + 128)) * 256 +
        (v / 2 ^ 14 % 128 + 128)) =
      varinum_buffer_go (v / 2 ^ 14 / 128) (v / 2 ^ 14 / 128)
        (((v % 128 * 256 + (v / 128 % 128 + 128)) * 256 +
          (v / 2 ^ 14 % 128 + 128)) * 256 + (v / 2 ^ 14 / 128 % 128 + 128)) := by
    apply varinum_buffer_step
    · omega
    · omega
  have hq3 : v / 2 ^ 21 < 128 := by omega
  have hq3m : v / 2 ^ 21 % 128 = v / 2 ^ 21 := Nat.mod_eq_of_lt hq3
  rw [hb1, hb2, hdd, hb3, hdd2, hq3m, varinum_buffer_exit _ _ hq3]
  rw [varinum_emit_step _
    (byte_div128_mod2_one
      ((v % 128 * 256 + (v / 128 % 128 + 128)) * 256 + (v / 2 ^ 14 % 128 + 128))
      (v / 2 ^ 21 + 128) (by omega) (by omega))]
  have e1 : (((v % 128 * 256 + (v / 128 % 128 + 128)) * 256 +
      (v / 2 ^ 14 % 128 + 128)) * 256 + (v / 2 ^ 21 + 128)) % 256 =
      v / 2 ^ 21 + 128 := by omega
  have e2 : (((v % 128 * 256 + (v / 128 % 128 + 128)) * 256 +
      (v / 2 ^ 14 % 128 + 128)) * 256 + (v / 2 ^ 21 + 128)) / 256 =
      (v % 128 * 256 + (v / 128 % 128 + 128)) * 256 +
        (v / 2 ^ 14 % 128 + 128) := by omega
  rw [e1, e2]
  rw [varinum_emit_step _
    (byte_div128_mod2_one (v % 128 * 256 + (v / 128 % 128 + 128))
      (v / 2 ^ 14 % 128 + 128) (by omega) (by omega))]
  have e3 : ((v % 128 * 256 + (v / 128 % 128 + 128)) * 256 +
      (v / 2 ^ 14 % 128 + 128)) % 256 = v / 2 ^ 14 % 128 + 128 := by omega
  have e4 : ((v % 128 * 256 + (v / 128 % 128 + 128)) * 256 +
      (v / 2 ^ 14 % 128 + 128)) / 256 =
      v % 128 * 256 + (v / 128 % 128 + 128) := by omega
  rw [e3, e4]
  rw [varinum_emit_step _
    (byte_div128_mod2_one (v % 128) (v / 128 % 128 + 128) (by omega) (by omega))]
  have e5 : (v % 128 * 256 + (v / 128 % 128 + 128)) % 256 =
      v / 128 % 128 + 128 := by omega
  have e6 : (v % 128 * 256 + (v / 128 % 128 + 128)) / 256 = v % 128 := by omega
  rw [e5, e6, varinum_emit_exit _ (small_div128_mod2_zero _ (by omega))]
  rw [Nat.mod_eq_of_lt (show v % 128 < 256 by omega)]

/-- Modelled from the spec: the minimal number of 7-bit groups needed to
represent `v` (the length of a redundancy-free varint). -/
def varinum_len (v : Nat) : Nat :=
  if v < 2 ^ 7 then 1
  else if v < 2 ^ 14 then 2
  else if v < 2 ^ 21 then 3
  else 4

/-- Any value accepted by the varint decoder is bounded by the number of
consumed bytes (7 data bits each). -/
lemma decode_varinum_go_lt :
    ∀ (l : List Nat) (acc v : Nat), decode_varinum_go l acc = some v →
      v < (acc + 1) * 128 ^ l.length := by
  intro l
  induction l with
  | nil => intro acc v h; simp [decode_varinum_go] at h
  | cons b rest ih =>
      intro acc v h
      rw [decode_varinum_go.eq_def] at h
      simp only at h
      by_cases hb : b % 256 < 128
      · rw [if_pos hb] at h
        cases rest with
        | nil =>
            simp at h
            have hm : b % 128 < 128 := Nat.mod_lt _ (by omega)
            simp [List.length_cons]
            omega
        | cons c cs => simp at h
      · rw [if_neg hb] at h
        have hrec := ih _ _ h
        have hstep : (acc * 128 + b % 128 + 1) * 128 ^ rest.length ≤
            ((acc + 1) * 128) * 128 ^ rest.length := by
          apply Nat.mul_le_mul_right
          have : b % 128 < 128 := Nat.mod_lt _ (by omega)
          omega
        have hpow : ((acc + 1) * 128) * 128 ^ rest.length =
            (acc + 1) * 128 ^ (rest.length + 1) := by
          rw [Nat.pow_succ]
          ring
        simp only [List.length_cons]
        omega

lemma decode_go_last (b acc : Nat) (h : b % 256 < 128) :
    decode_varinum_go [b] acc = some (acc * 128 + b % 128) := by
  simp [decode_varinum_go, h]

lemma decode_go_cont (b : Nat) (rest : List Nat) (acc : Nat)
    (h : ¬ b % 256 < 128) :
    decode_varinum_go (b :: rest) acc =
      decode_varinum_go rest (acc * 128 + b % 128) := by
  rw [decode_varinum_go.eq_def]
  simp [h]

/-- C4: for every `v` below `2 ^ 28`, `track::add_varinum` emits the
standard minimal MIDI variable-length quantity: decoding by the standard
varint rule returns `v`; the byte count is the minimal group count; every
byte but the last carries the continuation flag (values in [128, 256));
the last byte is the low 7-bit group (below 128); and no shorter byte
list decodes to `v`, so there are no redundant leading continuation
bytes. -/
theorem C4_varinum_encoding (v : Nat) (h : v < 2 ^ 28) :
    decode_varinum (add_varinum v) = some v ∧
    (add_varinum v).length = varinum_len v ∧
    (∀ b ∈ (add_varinum v).dropLast, 128 ≤ b ∧ b < 256) ∧
    (add_varinum v).getLast? = some (v % 128) ∧
    v % 128 < 128 ∧
    (∀ l : List Nat, decode_varinum l = some v →
      (add_varinum v).length ≤ l.length) := by
  by_cases h1 : v < 2 ^ 7
  · rw [add_varinum_range1 v (by omega)]
    refine ⟨?_, ?_, ?_, ?_, by omega, ?_⟩
    · unfold decode_varinum
      rw [decode_go_last _ _ (by omega)]
      simp only [Nat.zero_mul, Nat.zero_add, Option.some.injEq]
      omega
    · unfold varinum_len
      rw [if_pos h1]
      rfl
    · intro x hx
      simp at hx
    · simp only [List.getLast?_singleton, Option.some.injEq]
      omega
    · intro l hl
      have hb := decode_varinum_go_lt l 0 v hl
      simp only [List.length_singleton]
      rcases l with _ | ⟨c, cs⟩
      · simp [decode_varinum, decode_varinum_go] at hl
      · simp
  · by_cases h2 : v < 2 ^ 14
    · rw [add_varinum_range2 v (by omega) h2]
      refine ⟨?_, ?_, ?_, ?_, by omega, ?_⟩
      · unfold decode_varinum
        rw [decode_go_cont _ _ _ (by omega), decode_go_last _ _ (by omega)]
        simp only [Nat.zero_mul, Nat.zero_add, Option.some.injEq]
        omega
      · unfold varinum_len
        rw [if_neg h1, if_pos h2]
        rfl
      · intro x hx
        simp [List.dropLast] at hx
        subst hx
        omega
      · simp only [List.getLast?_cons_cons, List.getLast?_singleton]
      · intro l hl
        have hb := decode_varinum_go_lt l 0 v hl
        simp only [Nat.one_mul] at hb
        by_contra hc
        push_neg at hc
        simp only [List.length_cons, List.length_singleton, List.length_nil] at hc
        have hle : (128 : Nat) ^ l.length ≤ 128 ^ 1 :=
          Nat.pow_le_pow_right (by norm_num) (by omega)
        have hn : (128 : Nat) ^ 1 = 128 := by norm_num
        omega
    · by_cases h3 : v < 2 ^ 21
      · rw [add_varinum_range3 v (by omega) h3]
        refine ⟨?_, ?_, ?_, ?_, by omega, ?_⟩
        · unfold decode_varinum
          rw [decode_go_cont _ _ _ (by omega), decode_go_cont _ _ _ (by omega),
            decode_go_last _ _ (by omega)]
          simp only [Nat.zero_mul, Nat.zero_add, Option.some.injEq]
          omega
        · unfold varinum_len
          rw [if_neg h1, if_neg h2, if_pos h3]
          rfl
        · intro x hx
          simp [List.dropLast] at hx
          rcases hx with rfl | rfl
          · constructor <;> omega
          · constructor <;> omega
        · simp only [List.getLast?_cons_cons, List.getLast?_singleton]
        · intro l hl
          have hb := decode_varinum_go_lt l 0 v hl
          simp only [Nat.one_mul] at hb
          by_contra hc
          push_neg at hc
          simp only [List.length_cons, List.length_singleton, List.length_nil] at hc
          have hle : (128 : Nat) ^ l.length ≤ 128 ^ 2 :=
            Nat.pow_le_pow_right (by norm_num) (by omega)
          have hn : (128 : Nat) ^ 2 = 16384 := by norm_num
          omega
      · rw [add_varinum_range4 v (by omega) h]
        refine ⟨?_, ?_, ?_, ?_, by omega, ?_⟩
        · unfold decode_varinum
          rw [decode_go_cont _ _ _ (by omega), decode_go_cont _ _ _ (by omega),
            decode_go_cont _ _ _ (by omega), decode_go_last _ _ (by omega)]
          simp only [Nat.zero_mul, Nat.zero_add, Option.some.injEq]
          omega
        · unfold varinum_len
          rw [if_neg h1, if_neg h2, if_neg h3]
          rfl
        · intro x hx
          simp [List.dropLast] at hx
          rcases hx with rfl | rfl | rfl
          · constructor <;> omega
          · constructor <;> omega
          · constructor <;> omega
        · simp only [List.getLast?_cons_cons, List.getLast?_singleton]
        · intro l hl
          have hb := decode_varinum_go_lt l 0 v hl
          simp only [Nat.one_mul] at hb
          by_contra hc
          push_neg at hc
          simp only [List.length_cons, List.length_singleton, List.length_nil] at hc
          have hle : (128 : Nat) ^ l.length ≤ 128 ^ 3 :=
            Nat.pow_le_pow_right (by norm_num) (by omega)
          have hn : (128 : Nat) ^ 3 = 2097152 := by norm_num
          omega

/-- Witness for C4 at the top of the range: the four-byte encoding of
`2 ^ 28 - 1` and its round trip. -/
theorem C4_witness :
    (268435455 : Nat) < 2 ^ 28 ∧
    decode_varinum (add_varinum 268435455) = some 268435455 ∧
    (add_varinum 268435455).length = varinum_len 268435455 ∧
    add_varinum 268435455 = [255, 255, 255, 127] := by
  have h := C4_varinum_encoding 268435455 (by norm_num)
  exact ⟨by norm_num, h.1, h.2.1, by decide⟩

/-! ### The replay-pass offset arithmetic (claim C1) -/

/-- Replay at an explicit list of per-pass time offsets (reference form
for stating which offset each pass of `song_fill_seq_event` uses). -/
def song_passes_on (s : sequence) (trig : trigger) :
    List Int → song_state → song_state × List Nat
  | [], st => (st, [])
  | t :: ts, st =>
      let pass := song_pass s trig t st s.events
      let rest := song_passes_on s trig ts pass.1
      (rest.1, pass.2 ++ rest.2)

/-- The arithmetic progression `t0, t0 + len, …` of `n` pass offsets. -/
def pass_offsets (t0 len : Int) (n : Nat) : List Int :=
  List.map (fun p : Nat => t0 + (p : Int) * len) (List.range n)

lemma pass_offsets_succ (t0 len : Int) (n : Nat) :
    pass_offsets t0 len (n + 1) = t0 :: pass_offsets (t0 + len) len n := by
  unfold pass_offsets
  rw [List.range_succ_eq_map, List.map_cons, List.map_map]
  refine congrArg₂ List.cons (by push_cast; ring) ?_
  apply List.map_congr_left
  intro p hp
  show t0 + ((p + 1 : Nat) : Int) * len = t0 + len + (p : Int) * len
  push_cast
  ring

/-- The iterative pass loop of `song_fill_seq_event` visits exactly the
offsets `t0 + p * len` for `p = 0, …, n - 1`. -/
lemma song_passes_eq_on (s : sequence) (trig : trigger) (n : Nat) :
    ∀ t0 st, song_passes s trig n t0 st =
      song_passes_on s trig (pass_offsets t0 s.length n) st := by
  induction n with
  | zero => intro t0 st; rfl
  | succ n ih =>
      intro t0 st
      rw [pass_offsets_succ]
      show (let pass := song_pass s trig t0 st s.events;
        let rest := song_passes s trig n (t0 + s.length) pass.1;
        (rest.1, pass.2 ++ rest.2)) = _
      rw [song_passes_on]
      simp only
      rw [ih]

/-- C1: in song export, the initial replay offset is
`tick_start + (offset mod len) - (tick_start mod len)`, pulled back one
pattern length exactly when the offset phase exceeds the start phase (so
the replay starts at or before the trigger start); the pattern is then
replayed in passes `p = 0 .. times_played` with
`times_played = 1 + (length - 1) / len`, the offset growing by `len`
each pass. -/
theorem C1_song_replay_arithmetic (trig : trigger) (len : Int)
    (hlen : 0 < len) (hoff : 0 ≤ trig.offset) (hstart : 0 ≤ trig.tick_start)
    (hend : trig.tick_start ≤ trig.tick_end) :
    song_time_offset trig len =
      trig.tick_start + trig.offset % len - trig.tick_start % len -
        (if trig.tick_start % len < trig.offset % len then len else 0) ∧
    song_time_offset trig len ≤ trig.tick_start ∧
    song_times_played trig len = 1 + (trigger.length trig - 1) / len ∧
    (∀ (s : sequence) (prev : Int), s.length = len →
      song_fill_seq_event s trig prev =
        some
          (let r := song_passes_on s trig
            (pass_offsets (song_time_offset trig len) len
              (song_times_played trig len + 1).toNat)
            { note_is_used := fun _ => 0, prev_timestamp := prev }
          (r.2, r.1.prev_timestamp))) := by
  have htm1 : Int.tmod trig.offset len = trig.offset % len :=
    Int.tmod_eq_emod hoff (le_of_lt hlen)
  have htm2 : Int.tmod trig.tick_start len = trig.tick_start % len :=
    Int.tmod_eq_emod hstart (le_of_lt hlen)
  refine ⟨?_, ?_, ?_, ?_⟩
  · unfold song_time_offset
    simp only [htm1, htm2, gt_iff_lt]
    by_cases hc : trig.tick_start % len < trig.offset % len
    · rw [if_pos hc, if_pos hc]
    · rw [if_neg hc, if_neg hc]
      ring
  · unfold song_time_offset
    simp only [htm1, htm2, gt_iff_lt]
    have hm1 : 0 ≤ trig.offset % len := Int.emod_nonneg _ (by omega)
    have hm2 : trig.offset % len < len := Int.emod_lt_of_pos _ hlen
    have hm3 : 0 ≤ trig.tick_start % len := Int.emod_nonneg _ (by omega)
    by_cases hc : trig.tick_start % len < trig.offset % len
    · rw [if_pos hc]
      omega
    · rw [if_neg hc]
      omega
  · unfold song_times_played
    have hlen1 : 0 ≤ trigger.length trig - 1 := by
      unfold trigger.length
      omega
    rw [Int.tdiv_eq_ediv hlen1 (le_of_lt hlen)]
  · intro s prev hs
    unfold song_fill_seq_event
    rw [hs, if_neg (by omega)]
    simp only
    rw [song_passes_eq_on, hs]

/-- Witness for C1 at the spec's concrete scenario: pattern length 192,
trigger 100–300 with offset 50 — initial offset 50, no backward
adjustment, three passes (`times_played = 2`). -/
theorem C1_witness :
    song_time_offset ⟨100, 300, 50, 0⟩ 192 = 50 ∧
    ¬ ((100 : Int) % 192 < (50 : Int) % 192) ∧
    song_times_played ⟨100, 300, 50, 0⟩ 192 = 2 := by
  have h := C1_song_replay_arithmetic ⟨100, 300, 50, 0⟩ 192 (by decide)
    (by decide) (by decide) (by decide)
  refine ⟨h.1.trans (by decide), by decide, h.2.2.1.trans (by decide)⟩

/-! ### Zero pattern length in song export (claim C5) -/

/-- An exportable sequence whose pattern length is zero (the situation
the `mod_last_tick` banner warns about: "Some MIDI file errors and other
things can lead to an m_length of 0"). -/
def c5_seq : sequence :=
  { events := []
    triggers := [⟨0, 10, 0, 0⟩]
    song_mute := false
    length := 0
    name := []
    midi_channel := 0
    midi_bus := 0
    free_channel := false
    beats_per_bar := 4
    beat_width := 4
    musical_key := c_key_of_C
    musical_scale := c_scales_off
    background_sequence := 2048
    transposable := true
    color := c_seq_color_none
    loop_count_max := 0
    measticks := 0
    last_tick := 7 }

/-- C5: `sequence::mod_last_tick` does guard its modulus against a
short length, but song export does not: for this exportable sequence of
length zero, `song_fill_seq_event` reaches `trig.offset() % len` with
`len == 0` (undefined behaviour in C++, `none` in the embedding), and
`song_fill_track` propagates the failure — no guard prevents the
evaluation. -/
theorem C5_zero_length_mod_unguarded :
    c5_seq.is_exportable = true ∧
    c5_seq.length = 0 ∧
    song_fill_seq_event c5_seq ⟨0, 10, 0, 0⟩ 0 = none ∧
    song_fill_track c5_seq ⟨false⟩ [] 0 false = none ∧
    c5_seq.mod_last_tick = c5_seq.last_tick := by
  refine ⟨rfl, rfl, rfl, rfl, by decide⟩

/-! ### Non-exportable patterns in song export (claim C6) -/

/-- C6: a song-muted pattern or one with no triggers makes
`song_fill_track` a no-op reporting `false` with the byte container
untouched, and the returned boolean is `false` exactly in that
not-exportable situation. -/
theorem C6_not_exportable_noop (s : sequence) (usr : usr_settings)
    (initial : List Nat) (track : Int) (standalone : Bool) :
    ((s.song_mute = true ∨ s.triggers = []) →
      song_fill_track s usr initial track standalone = some (false, initial)) ∧
    (∀ (b : Bool) (bytes : List Nat),
      song_fill_track s usr initial track standalone = some (b, bytes) →
      (b = false ↔ (s.song_mute = true ∨ s.triggers = []))) := by
  have hexp : s.is_exportable = false ↔
      (s.song_mute = true ∨ s.triggers = []) := by
    cases hm : s.song_mute <;> cases htr : s.triggers <;>
      simp [sequence.is_exportable, hm, htr]
  constructor
  · intro hcond
    have hf : s.is_exportable = false := hexp.mpr hcond
    unfold song_fill_track
    rw [hf]
    simp
  · intro b bytes hres
    cases he : s.is_exportable with
    | false =>
        unfold song_fill_track at hres
        rw [he] at hres
        simp at hres
        rw [← hres.1]
        simp [hexp.mp he]
    | true =>
        have hne : ¬ (s.song_mute = true ∨ s.triggers = []) := by
          intro hcond
          rw [hexp.mpr hcond] at he
          exact Bool.false_ne_true he
        unfold song_fill_track at hres
        rw [he] at hres
        simp only [if_true] at hres
        rcases hml : song_trigger_loop s s.triggers 0 with _ | ⟨body, last⟩
        · rw [hml] at hres
          simp at hres
        · rw [hml] at hres
          rcases hlast : s.triggers.getLast? with _ | ender
          · rw [hlast] at hres
            simp at hres
          · rw [hlast] at hres
            simp only [Option.some.injEq, Prod.mk.injEq] at hres
            rw [← hres.1]
            simp [hne]

/-- Witness for C6: a muted single-trigger pattern leaves a pre-filled
container untouched and reports `false`. -/
def c6_seq : sequence :=
  { c5_seq with song_mute := true, length := 192 }

theorem C6_witness :
    song_fill_track c6_seq ⟨false⟩ [1, 2, 3] 5 true = some (false, [1, 2, 3]) :=
  (C6_not_exportable_noop c6_seq ⟨false⟩ [1, 2, 3] 5 true).1 (Or.inl rfl)

/-! ### Channel resolution at write time (claim C7) -/

/-- C7: for channel-voice events the status byte is combined with the
event's own channel nibble when the pattern is free-channel or its
nominal channel is the null channel, and with the pattern's nominal
channel otherwise; Meta and SysEx events bypass the substitution
entirely — `add_ex_event` writes their status byte unmodified. -/
theorem C7_channel_policy (s : sequence) (e : event) (delta : Int) :
    (e.is_ex_data = false →
      add_event s e delta =
        add_varinum (toULong delta) ++
        put (e.status |||
          (if s.free_channel || is_null_channel s.midi_channel then e.channel
           else s.midi_channel)) ++
        (if e.has_channel then add_event_data e.status e.d0 e.d1 else [])) ∧
    (e.is_ex_data = true → add_event s e delta = add_ex_event e delta) ∧
    add_ex_event e delta =
      add_varinum (toULong delta) ++ put e.status ++
      (if e.is_meta then put e.channel else []) ++
      add_varinum e.sysex_size ++ e.sysex.map (fun b => b % 256) := by
  refine ⟨?_, ?_, rfl⟩
  · intro hex
    cases hc : s.free_channel || is_null_channel s.midi_channel <;>
      simp [add_event, hex, hc, List.append_assoc]
  · intro hex
    simp [add_event, hex]

/-- Witness for C7: a note-on on a pattern with a nominal channel gets
the pattern's channel; a meta event keeps its 0xFF status. -/
theorem C7_witness :
    add_event c6_seq ⟨0x90, 5, 60, 100, 0, []⟩ 0 =
      add_varinum (toULong 0) ++ put (0x90 ||| 0) ++
      add_event_data 0x90 60 100 ∧
    add_event c6_seq ⟨0xFF, 0x51, 0, 0, 0, [7, 161, 32]⟩ 0 =
      add_ex_event ⟨0xFF, 0x51, 0, 0, 0, [7, 161, 32]⟩ 0 := by
  have h1 := (C7_channel_policy c6_seq ⟨0x90, 5, 60, 100, 0, []⟩ 0).1 (by decide)
  have h2 := (C7_channel_policy c6_seq ⟨0xFF, 0x51, 0, 0, 0, [7, 161, 32]⟩ 0).2.1
    (by decide)
  exact ⟨h1.trans (by decide), h2⟩

/-! ### One trigger-tag variant for the whole track (claim C8) -/

/-- C8: in `track::fill`, the trigger SeqSpec variant is chosen once for
the whole track — the transpose variant exactly when old-style triggers
are not configured and some trigger carries a non-zero transposition —
and every trigger record in the emitted block follows that one variant,
the per-trigger transpose byte appearing only under the transpose
variant. -/
theorem C8_trigger_variant_once (s : sequence) (rc : rc_settings) :
    ((!rc.save_old_triggers && s.any_trigger_transposed) = true ↔
      (rc.save_old_triggers = false ∧ ∃ t ∈ s.triggers, t.transpose ≠ 0)) ∧
    fill_triggers_section s rc =
      put_seqspec
        (if !rc.save_old_triggers && s.any_trigger_transposed then
          c_trig_transpose
         else c_triggers_ex)
        (s.triggers.length *
          (if !rc.save_old_triggers && s.any_trigger_transposed then 13
           else 12)) ++
      (s.triggers.map (fun t =>
        add_long (toULong t.tick_start) ++ add_long (toULong t.tick_end) ++
        add_long (toULong t.offset) ++
        (if !rc.save_old_triggers && s.any_trigger_transposed then
          add_byte t.transpose_byte
         else []))).flatten := by
  have hd1 : trigger.datasize c_trig_transpose = 13 := by decide
  have hd2 : trigger.datasize c_triggers_ex = 12 := by decide
  constructor
  · simp [sequence.any_trigger_transposed, trigger.transposed,
      List.any_eq_true, bne_iff_ne]
  · cases htr : (!rc.save_old_triggers && s.any_trigger_transposed) <;>
      simp [fill_triggers_section, sequence.triggers_datasize, htr, hd1, hd2]

/-! ### Conditional SeqSpec metadata blocks (claim C9) -/

/-- C9 counterexample: `c5_seq` has every metadata value at its
documented default, yet `fill_proprietary` still emits the buss block
(and the time-signature, channel and transpose blocks after it): the
output is not empty and its first nine bytes are exactly the
`c_midibus` SeqSpec block. -/
theorem C9_counterexample :
    (fill_proprietary c5_seq ⟨false⟩).take 9 =
      put_seqspec c_midibus 1 ++ put c5_seq.midi_bus ∧
    fill_proprietary c5_seq ⟨false⟩ ≠ [] := by
  refine ⟨by decide, by decide⟩

/-- C9 amended: only the key, scale, background-sequence (each further
gated on the global-feature flag being off), color and loop-count blocks
are conditional on a non-default value; the buss, time-signature,
channel and transpose blocks are emitted unconditionally. -/
theorem C9_amended_conditional_blocks (s : sequence) (usr : usr_settings) :
    fill_proprietary s usr =
      put_seqspec c_midibus 1 ++ put s.midi_bus ++
      put_seqspec c_timesig 2 ++ put s.beats_per_bar ++ put s.beat_width ++
      put_seqspec c_midichannel 1 ++ put s.midi_channel ++
      (if usr.global_seq_feature = false ∧ s.musical_key ≠ c_key_of_C then
        put_seqspec c_musickey 1 ++ put s.musical_key
       else []) ++
      (if usr.global_seq_feature = false ∧ s.musical_scale ≠ c_scales_off then
        put_seqspec c_musicscale 1 ++ put s.musical_scale
       else []) ++
      (if usr.global_seq_feature = false ∧
          seq_valid s.background_sequence = true then
        put_seqspec c_backsequence 4 ++ add_long (toULong s.background_sequence)
       else []) ++
      put_seqspec c_transpose 1 ++ put (if s.transposable then 1 else 0) ++
      (if s.color ≠ c_seq_color_none then
        put_seqspec c_seq_color 1 ++ put (toUByte s.color)
       else []) ++
      (if s.loop_count_max > 0 then
        put_seqspec c_seq_loopcount 2 ++ add_short (toUShort s.loop_count_max)
       else []) := by
  cases hg : usr.global_seq_feature <;>
    simp [fill_proprietary, hg, List.append_assoc]

/-! ### Measure-rounded end tick in song export (claim C10) -/

/-- An exportable pattern with one trigger ending at tick 300 and 192
ticks per measure. -/
def c10_seq : sequence :=
  { c5_seq with
      length := 192
      measticks := 192
      triggers := [⟨100, 300, 0, 0⟩] }

/-- C10 counterexample: the measure-rounded end tick (383) is passed to
`song_fill_seq_trigger` only as the track length that fixes the
end-of-track delta; the flattened trigger record itself stores the last
trigger's unrounded `tick_end` (300), not the rounded value. -/
theorem C10_counterexample :
    song_fill_track c10_seq ⟨false⟩ [] 0 false =
      some (true,
        song_fill_seq_trigger c10_seq ⟨false⟩ ⟨100, 300, 0, 0⟩ 383 0) ∧
    (song_fill_seq_trigger c10_seq ⟨false⟩ ⟨100, 300, 0, 0⟩ 383 0).take 20 =
      put_seqspec c_triggers_ex 12 ++ add_long 0 ++ add_long 300 ++
        add_long 0 ∧
    song_rounded_end 300 192 = 383 ∧
    add_long 300 ≠ add_long 383 := by
  refine ⟨by decide, by decide, by decide, by decide⟩

/-- C10 amended: with a positive ticks-per-measure value, the rounded
end tick is never below the input, its remainder modulo the measure
length is `measticks - 1`, and an input already at that phase is left
unchanged; the rounded value enters `song_fill_seq_trigger` only as the
`length` of the end-of-track delta, while the flattened trigger record
stores the trigger's own (unrounded) end tick. -/
theorem C10_rounded_end (seqend measticks : Int) (hm : 0 < measticks)
    (hs : 0 ≤ seqend) :
    seqend ≤ song_rounded_end seqend measticks ∧
    song_rounded_end seqend measticks % measticks = measticks - 1 ∧
    (seqend % measticks = measticks - 1 →
      song_rounded_end seqend measticks = seqend) ∧
    (∀ (s : sequence) (usr : usr_settings) (trig : trigger)
        (len prev : Int),
      song_fill_seq_trigger s usr trig len prev =
        put_seqspec c_triggers_ex 12 ++ add_long 0 ++
        add_long (toULong trig.tick_end) ++ add_long 0 ++
        fill_proprietary s usr ++ fill_meta_track_end (len - prev)) := by
  have htm : Int.tmod seqend measticks = seqend % measticks :=
    Int.tmod_eq_emod hs (le_of_lt hm)
  have hr0 : 0 ≤ seqend % measticks := Int.emod_nonneg _ (by omega)
  have hrm : seqend % measticks < measticks := Int.emod_lt_of_pos _ hm
  have hq := Int.ediv_add_emod seqend measticks
  unfold song_rounded_end
  rw [if_pos hm]
  simp only [htm]
  rcases eq_or_ne (seqend % measticks) (measticks - 1) with he | hne
  · rw [if_neg (by simpa using he)]
    exact ⟨le_refl _, he, fun _ => rfl, fun s usr trig len prev => rfl⟩
  · rw [if_pos hne]
    refine ⟨by omega, ?_, fun hcon => absurd hcon hne, fun s usr trig len prev => rfl⟩
    have hval : seqend + measticks - seqend % measticks - 1 =
        (measticks - 1) + measticks * (seqend / measticks) := by
      omega
    rw [hval, Int.add_mul_emod_self_left,
      Int.emod_eq_of_lt (by omega) (by omega)]

/-- Witness for C10 at the counterexample's numbers: rounding 300 with
192-tick measures gives at least 300 and remainder 191. -/
theorem C10_witness :
    (300 : Int) ≤ song_rounded_end 300 192 ∧
    song_rounded_end 300 192 % 192 = 191 := by
  have h := C10_rounded_end 300 192 (by decide) (by decide)
  exact ⟨h.1, h.2.1.trans (by decide)⟩

/-! ### Negative delta times in regular export (claim C2) -/

/-- Every delta time along the list is nonnegative, starting from the
given previous-timestamp cursor. -/
def deltas_ok : Int → List event → Bool
  | _, [] => true
  | prev, e :: rest =>
      decide (0 ≤ e.timestamp - prev) && deltas_ok e.timestamp rest

/-- The previous-timestamp cursor after emitting a list of events:
the last timestamp, or the initial cursor for an empty list. -/
def final_ts (prev : Int) (l : List event) : Int :=
  l.foldl (fun _ e => e.timestamp) prev

lemma final_ts_cons (prev : Int) (x : event) (xs : List event) :
    final_ts prev (x :: xs) = final_ts x.timestamp xs := by
  simp [final_ts]

/-- The event loop of `track::fill` emits the events up to the first
negative delta and stops there: the offending event and everything after
it are dropped, and the cursor stays at the last emitted timestamp. -/
lemma fill_events_stop (s : sequence) :
    ∀ (xs : List event) (y : event) (ys : List event) (prev : Int),
      deltas_ok prev xs = true → y.timestamp - final_ts prev xs < 0 →
      fill_events s (xs ++ y :: ys) prev =
        ((fill_events s xs prev).1, final_ts prev xs) := by
  intro xs
  induction xs with
  | nil =>
      intro y ys prev hok hneg
      simp only [final_ts, List.foldl_nil] at hneg
      rw [List.nil_append]
      simp only [fill_events, if_pos hneg]
      rfl
  | cons x xs ih =>
      intro y ys prev hok hneg
      simp only [deltas_ok, Bool.and_eq_true, decide_eq_true_eq] at hok
      obtain ⟨h0, hok'⟩ := hok
      have hnneg : ¬ (x.timestamp - prev < 0) := by omega
      rw [final_ts_cons] at hneg
      rw [List.cons_append]
      simp only [fill_events, if_neg hnneg]
      rw [ih y ys x.timestamp hok' hneg, final_ts_cons]

/-- An event with a negative timestamp: its very first delta in
`track::fill` is negative. -/
def c2_event : event := ⟨0x90, 0, 60, 100, -5, []⟩

/-- A sequence whose (sorted) event list starts with a negative delta. -/
def c2_seq : sequence :=
  { c5_seq with events := [c2_event] }

/-- C2 counterexample: on this input the very first delta is negative,
so the event loop aborts before emitting anything — yet `track::fill`
still appends the end-of-track meta event after the track name, so bytes
are written after the negative delta is detected. -/
theorem C2_counterexample :
    sort_events c2_seq.events = [c2_event] ∧
    c2_event.timestamp - 0 < 0 ∧
    (fill_events c2_seq (sort_events c2_seq.events) 0).1 = [] ∧
    fill c2_seq ⟨false⟩ ⟨false⟩ 0 false =
      fill_seq_name c2_seq.name ++ fill_meta_track_end 0 ∧
    fill_meta_track_end 0 ≠ [] := by
  refine ⟨rfl, by decide, rfl, by decide, by decide⟩

/-- C2 amended: when the sorted event list reaches a negative delta,
`track::fill` stops emitting events there (the offending event and all
later events are dropped), but it does not abort the export: the SeqSpec
sections (when requested) and the end-of-track meta event are still
written after the detection point. -/
theorem C2_negative_delta_stops_events_only (s : sequence)
    (rc : rc_settings) (usr : usr_settings) (track : Int) (doseqspec : Bool)
    (xs ys : List event) (y : event)
    (hsplit : sort_events s.events = xs ++ y :: ys)
    (hok : deltas_ok 0 xs = true)
    (hneg : y.timestamp - final_ts 0 xs < 0) :
    fill s rc usr track doseqspec =
      (if doseqspec then fill_seq_number track else []) ++
      fill_seq_name s.name ++
      (fill_events s xs 0).1 ++
      (if doseqspec then fill_triggers_section s rc ++ fill_proprietary s usr
       else []) ++
      fill_meta_track_end
        (if s.length < final_ts 0 xs then 0
         else s.length - final_ts 0 xs) := by
  simp only [fill]
  rw [hsplit, fill_events_stop s xs y ys 0 hok hneg]

/-- Witness for C2: the aborted export of `c2_seq` with SeqSpec
requested still carries the trigger section, the proprietary blocks and
the end-of-track marker. -/
theorem C2_witness :
    fill c2_seq ⟨false⟩ ⟨false⟩ 0 true =
      fill_seq_number 0 ++ fill_seq_name c2_seq.name ++ [] ++
      (fill_triggers_section c2_seq ⟨false⟩ ++
        fill_proprietary c2_seq ⟨false⟩) ++
      fill_meta_track_end 0 := by
  have h := C2_negative_delta_stops_events_only c2_seq ⟨false⟩ ⟨false⟩ 0 true
    [] [] c2_event rfl rfl (by decide)
  exact h.trans (by decide)

/-! ### Per-event rules of the replay pass (claim C3) -/

lemma transpose_note_status (e : event) (amount : Int) :
    (e.transpose_note amount).status = e.status := rfl

lemma is_note_on_transpose (e : event) (amount : Int) :
    (e.transpose_note amount).is_note_on = e.is_note_on := rfl

lemma is_note_off_transpose (e : event) (amount : Int) :
    (e.transpose_note amount).is_note_off = e.is_note_off := rfl

lemma is_note_of_is_note_on (e : event) (h : e.is_note_on = true) :
    e.is_note = true := by
  unfold event.is_note
  unfold event.is_note_on at h
  rw [h]
  simp

lemma is_note_of_is_note_off (e : event) (h : e.is_note_off = true) :
    e.is_note = true := by
  unfold event.is_note
  unfold event.is_note_off at h
  rw [h]
  simp

lemma not_note_on_of_note_off (e : event) (h : e.is_note_off = true) :
    e.is_note_on = false := by
  unfold event.is_note_off at h
  unfold event.is_note_on
  simp only [beq_iff_eq] at h ⊢
  rw [h]
  decide

/-- C3: the per-event rules of one replay pass of
`track::song_fill_seq_event`: events shifted before the trigger start
are skipped; a Note On past the trigger end is skipped; a Note On inside
the window bumps the open count for its (original) note and is emitted
transposed when the trigger is transposed; a Note Off with no open count
is discarded; a Note Off with an open count decrements it and is emitted
with its timestamp clipped to the trigger end; a non-note event at or
past the trigger end is dropped; a non-note event inside the window is
emitted unchanged. -/
theorem C3_replay_event_rules (s : sequence) (trig : trigger)
    (time_offset : Int) (st : song_state) (e : event) :
    (e.timestamp + time_offset < trig.tick_start →
      song_event_step s trig time_offset st e = (st, [])) ∧
    (trig.tick_start ≤ e.timestamp + time_offset → e.is_note_on = true →
      trig.tick_end < e.timestamp + time_offset →
      song_event_step s trig time_offset st e = (st, [])) ∧
    (trig.tick_start ≤ e.timestamp + time_offset → e.is_note_on = true →
      e.timestamp + time_offset ≤ trig.tick_end →
      song_event_step s trig time_offset st e =
        ({ note_is_used := bump st.note_is_used e.get_note 1,
           prev_timestamp := e.timestamp + time_offset },
         add_event s
           (if trig.transposed then e.transpose_note trig.transpose else e)
           (e.timestamp + time_offset - st.prev_timestamp))) ∧
    (trig.tick_start ≤ e.timestamp + time_offset → e.is_note_off = true →
      st.note_is_used e.get_note ≤ 0 →
      song_event_step s trig time_offset st e = (st, [])) ∧
    (trig.tick_start ≤ e.timestamp + time_offset → e.is_note_off = true →
      0 < st.note_is_used e.get_note →
      song_event_step s trig time_offset st e =
        ({ note_is_used := bump st.note_is_used e.get_note (-1),
           prev_timestamp :=
             if trig.tick_end < e.timestamp + time_offset then trig.tick_end
             else e.timestamp + time_offset },
         add_event s
           (if trig.transposed then e.transpose_note trig.transpose else e)
           ((if trig.tick_end < e.timestamp + time_offset then trig.tick_end
             else e.timestamp + time_offset) - st.prev_timestamp))) ∧
    (trig.tick_start ≤ e.timestamp + time_offset → e.is_note = false →
      trig.tick_end ≤ e.timestamp + time_offset →
      song_event_step s trig time_offset st e = (st, [])) ∧
    (trig.tick_start ≤ e.timestamp + time_offset → e.is_note = false →
      e.timestamp + time_offset < trig.tick_end →
      song_event_step s trig time_offset st e =
        ({ st with prev_timestamp := e.timestamp + time_offset },
         add_event s e (e.timestamp + time_offset - st.prev_timestamp))) := by
  refine ⟨?_, ?_, ?_, ?_, ?_, ?_, ?_⟩
  · intro hlt
    unfold song_event_step
    rw [if_neg (by omega)]
  · intro hge hon hpast
    have hnote : e.is_note = true := is_note_of_is_note_on e hon
    unfold song_event_step
    rw [if_pos (by omega), if_pos hnote]
    cases htr : trig.transposed <;>
      simp only [if_pos rfl, if_neg, Bool.false_eq_true, if_false, if_true] <;>
      rw [if_pos (by simp [is_note_on_transpose, hon]),
        if_neg (by omega)]
  · intro hge hon hin
    have hnote : e.is_note = true := is_note_of_is_note_on e hon
    unfold song_event_step
    rw [if_pos (by omega), if_pos hnote]
    cases htr : trig.transposed <;>
      simp only [Bool.false_eq_true, if_false, if_true] <;>
      rw [if_pos (by simp [is_note_on_transpose, hon]), if_pos (by omega)] <;>
      rfl
  · intro hge hoff hcnt
    have hnote : e.is_note = true := is_note_of_is_note_off e hoff
    have hnon : e.is_note_on = false := not_note_on_of_note_off e hoff
    unfold song_event_step
    rw [if_pos (by omega), if_pos hnote]
    cases htr : trig.transposed <;>
      simp only [Bool.false_eq_true, if_false, if_true] <;>
      rw [if_neg (by simp [is_note_on_transpose, hnon]),
        if_pos (by simp [is_note_off_transpose, hoff]),
        if_neg (by omega)]
  · intro hge hoff hcnt
    have hnote : e.is_note = true := is_note_of_is_note_off e hoff
    have hnon : e.is_note_on = false := not_note_on_of_note_off e hoff
    unfold song_event_step
    rw [if_pos (by omega), if_pos hnote]
    cases htr : trig.transposed <;>
      simp only [Bool.false_eq_true, if_false, if_true] <;>
      rw [if_neg (by simp [is_note_on_transpose, hnon]),
        if_pos (by simp [is_note_off_transpose, hoff]),
        if_pos (by omega)] <;>
      rfl
  · intro hge hnn hpast
    unfold song_event_step
    rw [if_pos (by omega), if_neg (by simp [hnn]), if_pos (by omega)]
  · intro hge hnn hin
    unfold song_event_step
    rw [if_pos (by omega), if_neg (by simp [hnn]), if_neg (by omega)]
    rfl

/-- Witness for C3: a Note On at shifted tick 105 inside the window of a
transposed trigger 100–300 is emitted transposed with the open count of
its original note bumped; a Note Off for a note with no open count is
discarded. -/
theorem C3_witness :
    song_event_step c10_seq ⟨100, 300, 50, 5⟩ 95
      { note_is_used := fun _ => 0, prev_timestamp := 0 }
      ⟨0x90, 0, 60, 100, 10, []⟩ =
      ({ note_is_used := bump (fun _ => 0) 60 1, prev_timestamp := 105 },
       add_event c10_seq ((⟨0x90, 0, 60, 100, 10, []⟩ : event).transpose_note 5)
         105) ∧
    song_event_step c10_seq ⟨100, 300, 50, 5⟩ 95
      { note_is_used := fun _ => 0, prev_timestamp := 0 }
      ⟨0x80, 0, 60, 0, 10, []⟩ =
      ({ note_is_used := fun _ => 0, prev_timestamp := 0 }, []) := by
  constructor
  · have h := (C3_replay_event_rules c10_seq ⟨100, 300, 50, 5⟩ 95
      { note_is_used := fun _ => 0, prev_timestamp := 0 }
      ⟨0x90, 0, 60, 100, 10, []⟩).2.2.1 (by decide) (by decide) (by decide)
    exact h
  · have h := (C3_replay_event_rules c10_seq ⟨100, 300, 50, 5⟩ 95
      { note_is_used := fun _ => 0, prev_timestamp := 0 }
      ⟨0x80, 0, 60, 0, 10, []⟩).2.2.2.1 (by decide) (by decide) (by decide)
    exact h

end rtl66
